import Mathlib

/-!
A shallow embedding of `src/MathJax.tsx` (the `MathJax` function component of
better-react-mathjax).  The component wraps a span whose subtree is typeset by
the MathJax engine; renders and promise resolutions are modelled as events
acting on an explicit state that collects the component's refs
(`lastChildren`, `initLoad`, `typesetting`), the DOM element's inline
visibility style, the list of outstanding engine calls, and instrumentation
counters for engine calls and the two user callbacks.
-/

/-- `renderMode` prop / context value: `"pre"` or `"post"`. -/
inductive RenderMode
  | pre
  | post
deriving DecidableEq, Repr

/-- `hideUntilTypeset` prop / context value: `"first"` or `"every"`
(absence is modelled by `Option`). -/
inductive HidePolicy
  | first
  | every
deriving DecidableEq, Repr

/-- The inline `style.visibility` of the span DOM element: never set,
`"hidden"`, or `"visible"`. -/
inductive Visibility
  | unset
  | hidden
  | visible
deriving DecidableEq, Repr

/-- The `typesettingOptions` value: a conversion-function name `fn`
(the free-form option bag does not influence any control flow and is
omitted). -/
structure TypesettingOptions where
  fn : String
deriving DecidableEq, Repr

/-- The props of the `MathJax` component that influence its behaviour
(`onInitTypeset` / `onTypeset` are tracked through invocation counters;
passthrough attributes are handled separately by `mergedStyle`).
`inline` defaults to `false` in the source; absent optional props are
`none`; the `dynamic` prop is only ever truthiness-tested, so it is a
`Bool` with `false` for `undefined`. -/
structure Props where
  inline : Bool
  hideUntilTypeset : Option HidePolicy
  text : Option String
  dynamic : Bool
  typesettingOptions : Option TypesettingOptions
  renderMode : Option RenderMode
deriving DecidableEq, Repr

/-- The `MathJaxBaseContext` value (`mjPromise`): the engine major version
plus the overrideable defaults.  The promise itself is the engine handle;
its resolution is modelled by `MJEvent.resolve` events. -/
structure MJContext where
  version : Nat
  hideUntilTypeset : Option HidePolicy
  renderMode : Option RenderMode
  typesettingOptions : Option TypesettingOptions
deriving DecidableEq, Repr

/-- Line 37: `hideUntilTypeset === undefined ? mjPromise?.hideUntilTypeset :
hideUntilTypeset`. -/
def usedHideUntilTypeset (p : Props) (c : Option MJContext) : Option HidePolicy :=
  match p.hideUntilTypeset with
  | some h => some h
  | none => c.bind (fun ctx => ctx.hideUntilTypeset)

/-- Line 38: `renderMode === undefined ? mjPromise?.renderMode : renderMode`. -/
def usedRenderMode (p : Props) (c : Option MJContext) : Option RenderMode :=
  match p.renderMode with
  | some m => some m
  | none => c.bind (fun ctx => ctx.renderMode)

/-- Line 39: `typesettingOptions === undefined ? mjPromise?.typesettingOptions :
typesettingOptions`. -/
def usedConversionOptions (p : Props) (c : Option MJContext) : Option TypesettingOptions :=
  match p.typesettingOptions with
  | some o => some o
  | none => c.bind (fun ctx => ctx.typesettingOptions)

/-- A rejection value from the engine promise: `message` is `some m` when
`typeof err.message !== "undefined"`, and `str` models `err.toString()`. -/
structure EngineErr where
  message : Option String
  str : String
deriving DecidableEq, Repr

/-- Lines 12-13: `` `Typesetting failed: ${typeof err.message !== "undefined" ?
err.message : err.toString()}` ``. -/
def typesettingFailed (err : EngineErr) : String :=
  "Typesetting failed: " ++ (match err.message with
    | some m => m
    | none => err.str)

/-- The errors thrown by the component (spec names: `InvalidConfiguration`
for the first four, `TypesetFailure` for the last). -/
inductive MJError
  | invalidText (t : Option String)
  | missingConversionFn
  | preWithVersion2
  | noContext
  | typesetFailure (msg : String)
deriving DecidableEq, Repr

/-- Line 69: `typeof inputText === "string" && inputText.length > 0`. -/
def validText : Option String → Bool
  | some t => decide (0 < t.length)
  | none => false

/-- Line 102: the throw guard is `!typesettingOptions || !typesettingOptions.fn`
on the `typesettingOptions` PROP (an empty string is falsy); this is its
negation. -/
def hasConversionFn : Option TypesettingOptions → Bool
  | some o => decide (o.fn ≠ "")
  | none => false

/-- Observable engine-side actions, recorded in dispatch order:
`typesetClear` (line 155), `typesetPass` (`typesetPromise` line 156 or the
version-2 queued `Typeset` job line 173), `convert t` (the conversion-function
call of lines 128/141), and `done` (the `onTypesetDone` handler). -/
inductive EngineAction
  | typesetClear
  | typesetPass
  | convert (t : String)
  | done
deriving DecidableEq, Repr

/-- The data an outstanding engine call closes over: the render-time values of
the resolved props (the promise callbacks created in the effect capture that
render's `usedHideUntilTypeset`, `dynamic`, `usedRenderMode`, `text`) and the
engine version that selected the dispatch path. -/
structure Pending where
  usedHide : Option HidePolicy
  dynamic : Bool
  usedMode : Option RenderMode
  text : Option String
  version : Nat
deriving DecidableEq, Repr

/-- The component state: the three refs of lines 28/42/45, the DOM element's
presence (`refCurrent`, `ref.current !== null`) and inline visibility style,
the visibility value of the previously committed style prop (for React's
style diffing; `none` before the first commit), the outstanding engine calls,
and instrumentation: `dispatchCount` counts engine-call dispatches,
`convertCalls` counts conversion-function invocations, `initCount` and
`typesetCount` count `onInitTypeset` / `onTypeset` invocations, `log` records
`EngineAction`s in order. -/
structure MJState where
  lastChildren : String
  initLoad : Bool
  typesetting : Bool
  refCurrent : Bool
  visibility : Visibility
  prevStyleVis : Option (Option Visibility)
  pending : List Pending
  dispatchCount : Nat
  convertCalls : Nat
  initCount : Nat
  typesetCount : Nat
  log : List EngineAction
deriving DecidableEq, Repr

/-- The state of a freshly created component instance: `lastChildren = ""`
(line 28), `initLoad = false` (line 42), `typesetting = false` (line 45),
`ref.current = null`, no inline styles, nothing committed, no outstanding
call. -/
def initState : MJState :=
  { lastChildren := ""
    initLoad := false
    typesetting := false
    refCurrent := false
    visibility := Visibility.unset
    prevStyleVis := none
    pending := []
    dispatchCount := 0
    convertCalls := 0
    initCount := 0
    typesetCount := 0
    log := [] }

/-- Lines 48-56 (`checkInitLoad`): on the first completion, reveal the element
when the policy is `"first"` and the element exists, invoke `onInitTypeset`,
and latch `initLoad`. -/
def checkInitLoad (pd : Pending) (s : MJState) : MJState :=
  { s with
    visibility :=
      if s.initLoad = false ∧ pd.usedHide = some HidePolicy.first ∧ s.refCurrent = true
      then Visibility.visible else s.visibility
    initCount := if s.initLoad = false then s.initCount + 1 else s.initCount
    initLoad := true }

/-- Lines 59-66 (`onTypesetDone`): reveal when the captured policy is
`"every"` with `dynamic` and mode `"post"`, run `checkInitLoad`, invoke
`onTypeset`, and clear the `typesetting` flag. -/
def onTypesetDone (pd : Pending) (s : MJState) : MJState :=
  let s1 :=
    { s with
      visibility :=
        if pd.usedHide = some HidePolicy.every ∧ pd.dynamic = true ∧
           pd.usedMode = some RenderMode.post ∧ s.refCurrent = true
        then Visibility.visible else s.visibility }
  let s2 := checkInitLoad pd s1
  { s2 with
    typesetCount := s2.typesetCount + 1
    log := s2.log ++ [EngineAction.done]
    typesetting := false }

/-- Lines 72-80: the render-body guard that re-hides the element between
passes when `!typesetting.current && ref.current !== null && dynamic &&
usedHideUntilTypeset === "every" && usedRenderMode === "post"`. -/
def hiddenGuard (p : Props) (c : Option MJContext) (s : MJState) : MJState :=
  { s with
    visibility :=
      if s.typesetting = false ∧ s.refCurrent = true ∧ p.dynamic = true ∧
         usedHideUntilTypeset p c = some HidePolicy.every ∧
         usedRenderMode p c = some RenderMode.post
      then Visibility.hidden else s.visibility }

/-- Line 197: the `visibility` entry of the style prop,
`usedHideUntilTypeset ? "hidden" : undefined` (any policy value is truthy). -/
def styleVisibility (p : Props) (c : Option MJContext) : Option Visibility :=
  if (usedHideUntilTypeset p c).isSome = true then some Visibility.hidden else none

/-- The React commit for the span of lines 191-203: attach the ref and apply
the style prop's `visibility` to the DOM by diffing against the previously
committed style prop (on mount an `undefined` value is not applied; on update
the DOM is only written when the value changed, so an imperative
`ref.current.style.visibility` mutation survives commits whose style prop is
unchanged). -/
def commitStyle (p : Props) (c : Option MJContext) (s : MJState) : MJState :=
  let next := styleVisibility p c
  { s with
    visibility :=
      match s.prevStyleVis with
      | none =>
        match next with
        | some v => v
        | none => s.visibility
      | some prev =>
        if prev = next then s.visibility
        else
          match next with
          | some v => v
          | none => Visibility.unset
    prevStyleVis := some next
    refCurrent := true }

/-- The `Pending` snapshot captured by a dispatch in the effect of render
`(p, ctx)`. -/
def mkPending (p : Props) (c : Option MJContext) (version : Nat) : Pending :=
  { usedHide := usedHideUntilTypeset p c
    dynamic := p.dynamic
    usedMode := usedRenderMode p c
    text := p.text
    version := version }

/-- Lines 93-189, the (layout) effect: gate on `dynamic || !initLoad.current`
and `ref.current !== null`; throw when the context is missing (lines 183-186);
in mode `"pre"` validate `text` (line 98), the `typesettingOptions` prop
(line 102), and the engine version (line 106); then dispatch exactly when
`usedRenderMode === "post" || text !== lastChildren.current` (line 111) and
`!typesetting.current` (line 112), setting the flag and issuing the engine
call.  A synchronously thrown error is returned as `some e` (the state
mutations before a throw — none on these paths — persist). -/
def runEffect (p : Props) (c : Option MJContext) (s : MJState) :
    MJState × Option MJError :=
  if p.dynamic = true ∨ s.initLoad = false then
    if s.refCurrent = true then
      match c with
      | none => (s, some MJError.noContext)
      | some ctx =>
        if usedRenderMode p c = some RenderMode.pre ∧ validText p.text = false then
          (s, some (MJError.invalidText p.text))
        else if usedRenderMode p c = some RenderMode.pre ∧
            hasConversionFn p.typesettingOptions = false then
          (s, some MJError.missingConversionFn)
        else if usedRenderMode p c = some RenderMode.pre ∧ ctx.version = 2 then
          (s, some MJError.preWithVersion2)
        else if usedRenderMode p c = some RenderMode.post ∨ p.text ≠ some s.lastChildren then
          if s.typesetting = false then
            ({ s with
                typesetting := true
                dispatchCount := s.dispatchCount + 1
                pending := s.pending ++ [mkPending p c ctx.version] }, none)
          else (s, none)
        else (s, none)
    else (s, none)
  else (s, none)

/-- Resolution of the oldest outstanding engine call.  On success (`ok`):
for version 3 in mode `"pre"` the conversion function runs and `updateFn`
(lines 118-124) stores `lastChildren := text!`, clears the engine document,
injects the output, and runs `onTypesetDone` (the promise-suffix and plain
variants of lines 125-150 behave identically at this granularity); for
version 3 in mode `"post"` (lines 152-158) `typesetClear` then
`typesetPromise` run, then `onTypesetDone`; for version 2 (lines 169-175)
the queued `Typeset` job runs, then the queued `onTypesetDone`.  On
rejection, every catch handler (lines 134-137, 147-150, 159-162, 165-168,
176-179) runs `onTypesetDone()` and then throws
`Error(typesettingFailed(err))`.  (`pd.text.getD ""` models the `text!`
assertion; the pre-mode validation guarantees `pd.text` is a nonempty
`some` on every reachable dispatch.) -/
def resolveCall (ok : Bool) (err : EngineErr) (s : MJState) :
    MJState × Option MJError :=
  match s.pending with
  | [] => (s, none)
  | pd :: rest =>
    if ok = true then
      if pd.version = 3 then
        if pd.usedMode = some RenderMode.pre then
          (onTypesetDone pd
            { s with
                pending := rest
                convertCalls := s.convertCalls + 1
                log := s.log ++ [EngineAction.convert (pd.text.getD "")]
                lastChildren := pd.text.getD s.lastChildren }, none)
        else
          (onTypesetDone pd
            { s with
                pending := rest
                log := s.log ++ [EngineAction.typesetClear, EngineAction.typesetPass] }, none)
      else
        (onTypesetDone pd
          { s with pending := rest, log := s.log ++ [EngineAction.typesetPass] }, none)
    else
      (onTypesetDone pd { s with pending := rest },
        some (MJError.typesetFailure (typesettingFailed err)))

/-- An event in the life of one component instance: a render (body guard,
React commit, then the layout effect) with the given props and context, or
the resolution of the oldest outstanding engine call. -/
inductive MJEvent
  | render (p : Props) (c : Option MJContext)
  | resolve (ok : Bool) (err : EngineErr)
deriving DecidableEq, Repr

/-- One event's effect on the state, with the error it surfaces (if any). -/
def step : MJEvent → MJState → MJState × Option MJError
  | MJEvent.render p c, s => runEffect p c (commitStyle p c (hiddenGuard p c s))
  | MJEvent.resolve ok err, s => resolveCall ok err s

/-- Run a list of events from a given state (errors propagate to the host
application and do not alter the instance state beyond what `step` records). -/
def runFrom : MJState → List MJEvent → MJState
  | s, [] => s
  | s, e :: evs => runFrom (step e s).1 evs

/-- Run a list of events from the initial state. -/
def run (evs : List MJEvent) : MJState := runFrom initState evs

/-- A caller-supplied `style` object in the passthrough attributes (`rest`):
`none` models an absent key. -/
structure CallerStyle where
  display : Option String
  visibility : Option String
deriving DecidableEq, Repr

/-- Lines 194-198: `{ display: inline ? "inline" : "block", ...rest.style,
visibility: usedHideUntilTypeset ? "hidden" : undefined }` — the caller's
keys override `display` (spread after it) and the computed `visibility`
overrides the caller's (written after the spread). -/
def mergedStyle (inl : Bool) (usedHide : Option HidePolicy) (rest : CallerStyle) :
    CallerStyle :=
  { display :=
      match rest.display with
      | some d => some d
      | none => some (if inl then "inline" else "block")
    visibility := if usedHide.isSome = true then some "hidden" else none }

/-! ### Frame lemmas for the individual phases -/

@[simp] theorem hiddenGuard_pending (p : Props) (c : Option MJContext) (s : MJState) :
    (hiddenGuard p c s).pending = s.pending := rfl

@[simp] theorem hiddenGuard_typesetting (p : Props) (c : Option MJContext) (s : MJState) :
    (hiddenGuard p c s).typesetting = s.typesetting := rfl

@[simp] theorem hiddenGuard_initLoad (p : Props) (c : Option MJContext) (s : MJState) :
    (hiddenGuard p c s).initLoad = s.initLoad := rfl

@[simp] theorem hiddenGuard_initCount (p : Props) (c : Option MJContext) (s : MJState) :
    (hiddenGuard p c s).initCount = s.initCount := rfl

@[simp] theorem hiddenGuard_typesetCount (p : Props) (c : Option MJContext) (s : MJState) :
    (hiddenGuard p c s).typesetCount = s.typesetCount := rfl

@[simp] theorem hiddenGuard_dispatchCount (p : Props) (c : Option MJContext) (s : MJState) :
    (hiddenGuard p c s).dispatchCount = s.dispatchCount := rfl

@[simp] theorem hiddenGuard_convertCalls (p : Props) (c : Option MJContext) (s : MJState) :
    (hiddenGuard p c s).convertCalls = s.convertCalls := rfl

@[simp] theorem hiddenGuard_log (p : Props) (c : Option MJContext) (s : MJState) :
    (hiddenGuard p c s).log = s.log := rfl

@[simp] theorem hiddenGuard_lastChildren (p : Props) (c : Option MJContext) (s : MJState) :
    (hiddenGuard p c s).lastChildren = s.lastChildren := rfl

@[simp] theorem hiddenGuard_refCurrent (p : Props) (c : Option MJContext) (s : MJState) :
    (hiddenGuard p c s).refCurrent = s.refCurrent := rfl

@[simp] theorem hiddenGuard_prevStyleVis (p : Props) (c : Option MJContext) (s : MJState) :
    (hiddenGuard p c s).prevStyleVis = s.prevStyleVis := rfl

@[simp] theorem commitStyle_pending (p : Props) (c : Option MJContext) (s : MJState) :
    (commitStyle p c s).pending = s.pending := rfl

@[simp] theorem commitStyle_typesetting (p : Props) (c : Option MJContext) (s : MJState) :
    (commitStyle p c s).typesetting = s.typesetting := rfl

@[simp] theorem commitStyle_initLoad (p : Props) (c : Option MJContext) (s : MJState) :
    (commitStyle p c s).initLoad = s.initLoad := rfl

@[simp] theorem commitStyle_initCount (p : Props) (c : Option MJContext) (s : MJState) :
    (commitStyle p c s).initCount = s.initCount := rfl

@[simp] theorem commitStyle_typesetCount (p : Props) (c : Option MJContext) (s : MJState) :
    (commitStyle p c s).typesetCount = s.typesetCount := rfl

@[simp] theorem commitStyle_dispatchCount (p : Props) (c : Option MJContext) (s : MJState) :
    (commitStyle p c s).dispatchCount = s.dispatchCount := rfl

@[simp] theorem commitStyle_convertCalls (p : Props) (c : Option MJContext) (s : MJState) :
    (commitStyle p c s).convertCalls = s.convertCalls := rfl

@[simp] theorem commitStyle_log (p : Props) (c : Option MJContext) (s : MJState) :
    (commitStyle p c s).log = s.log := rfl

@[simp] theorem commitStyle_lastChildren (p : Props) (c : Option MJContext) (s : MJState) :
    (commitStyle p c s).lastChildren = s.lastChildren := rfl

@[simp] theorem commitStyle_refCurrent (p : Props) (c : Option MJContext) (s : MJState) :
    (commitStyle p c s).refCurrent = true := rfl

@[simp] theorem commitStyle_prevStyleVis (p : Props) (c : Option MJContext) (s : MJState) :
    (commitStyle p c s).prevStyleVis = some (styleVisibility p c) := rfl

@[simp] theorem onTypesetDone_typesetting (pd : Pending) (s : MJState) :
    (onTypesetDone pd s).typesetting = false := rfl

@[simp] theorem onTypesetDone_pending (pd : Pending) (s : MJState) :
    (onTypesetDone pd s).pending = s.pending := rfl

@[simp] theorem onTypesetDone_typesetCount (pd : Pending) (s : MJState) :
    (onTypesetDone pd s).typesetCount = s.typesetCount + 1 := rfl

@[simp] theorem onTypesetDone_initLoad (pd : Pending) (s : MJState) :
    (onTypesetDone pd s).initLoad = true := rfl

@[simp] theorem onTypesetDone_initCount (pd : Pending) (s : MJState) :
    (onTypesetDone pd s).initCount =
      if s.initLoad = false then s.initCount + 1 else s.initCount := rfl

@[simp] theorem onTypesetDone_log (pd : Pending) (s : MJState) :
    (onTypesetDone pd s).log = s.log ++ [EngineAction.done] := rfl

@[simp] theorem onTypesetDone_lastChildren (pd : Pending) (s : MJState) :
    (onTypesetDone pd s).lastChildren = s.lastChildren := rfl

@[simp] theorem onTypesetDone_dispatchCount (pd : Pending) (s : MJState) :
    (onTypesetDone pd s).dispatchCount = s.dispatchCount := rfl

@[simp] theorem onTypesetDone_convertCalls (pd : Pending) (s : MJState) :
    (onTypesetDone pd s).convertCalls = s.convertCalls := rfl

@[simp] theorem onTypesetDone_refCurrent (pd : Pending) (s : MJState) :
    (onTypesetDone pd s).refCurrent = s.refCurrent := rfl

@[simp] theorem onTypesetDone_prevStyleVis (pd : Pending) (s : MJState) :
    (onTypesetDone pd s).prevStyleVis = s.prevStyleVis := rfl

theorem onTypesetDone_visibility (pd : Pending) (s : MJState) :
    (onTypesetDone pd s).visibility =
      if s.initLoad = false ∧ pd.usedHide = some HidePolicy.first ∧ s.refCurrent = true
      then Visibility.visible
      else if pd.usedHide = some HidePolicy.every ∧ pd.dynamic = true ∧
          pd.usedMode = some RenderMode.post ∧ s.refCurrent = true
        then Visibility.visible
        else s.visibility := rfl

/-! ### Case analyses for the effect and for call resolution -/

/-- The effect either leaves the state unchanged (gate closed, missing
context, a thrown configuration error, skipped text, or suppressed by the
`typesetting` flag) or, when the flag is down, dispatches exactly one engine
call. -/
theorem runEffect_cases (p : Props) (c : Option MJContext) (s : MJState) :
    (runEffect p c s).1 = s ∨
    (s.typesetting = false ∧ ∃ ctx, c = some ctx ∧
      (runEffect p c s).1 =
        { s with
            typesetting := true
            dispatchCount := s.dispatchCount + 1
            pending := s.pending ++ [mkPending p c ctx.version] }) := by
  cases c with
  | none =>
    left
    simp only [runEffect]
    split
    · split
      · rfl
      · rfl
    · rfl
  | some ctx =>
    simp only [runEffect]
    split
    · split
      · split
        · exact Or.inl rfl
        · split
          · exact Or.inl rfl
          · split
            · exact Or.inl rfl
            · split
              · split
                · exact Or.inr ⟨by assumption, ctx, rfl, rfl⟩
                · exact Or.inl rfl
              · exact Or.inl rfl
      · exact Or.inl rfl
    · exact Or.inl rfl

/-- Resolution of a call: nothing happens without an outstanding call;
otherwise the head call is consumed and `onTypesetDone` runs on a state that
differs from the original only in `pending` (and, per branch, in
`lastChildren`, `convertCalls` and `log`). -/
theorem resolveCall_char (ok : Bool) (err : EngineErr) (s : MJState) :
    (s.pending = [] ∧ resolveCall ok err s = (s, none)) ∨
    (∃ pd rest s1, s.pending = pd :: rest ∧
      (resolveCall ok err s).1 = onTypesetDone pd s1 ∧
      s1.pending = rest ∧ s1.typesetting = s.typesetting ∧
      s1.initLoad = s.initLoad ∧ s1.initCount = s.initCount ∧
      s1.typesetCount = s.typesetCount ∧ s1.refCurrent = s.refCurrent ∧
      s1.visibility = s.visibility ∧ s1.prevStyleVis = s.prevStyleVis ∧
      s1.dispatchCount = s.dispatchCount) := by
  obtain ⟨lc, il, ts, rc, vis, pv, pending, dc, cc, ic, tc, lg⟩ := s
  rcases pending with _ | ⟨pd, rest⟩
  · exact Or.inl ⟨rfl, rfl⟩
  · right
    simp only [resolveCall]
    by_cases hok : ok = true
    · rw [if_pos hok]
      by_cases hv : pd.version = 3
      · rw [if_pos hv]
        by_cases hm : pd.usedMode = some RenderMode.pre
        · rw [if_pos hm]
          exact ⟨pd, rest, _, rfl, rfl, rfl, rfl, rfl, rfl, rfl, rfl, rfl, rfl, rfl⟩
        · rw [if_neg hm]
          exact ⟨pd, rest, _, rfl, rfl, rfl, rfl, rfl, rfl, rfl, rfl, rfl, rfl, rfl⟩
      · rw [if_neg hv]
        exact ⟨pd, rest, _, rfl, rfl, rfl, rfl, rfl, rfl, rfl, rfl, rfl, rfl, rfl⟩
    · rw [if_neg hok]
      exact ⟨pd, rest, _, rfl, rfl, rfl, rfl, rfl, rfl, rfl, rfl, rfl, rfl, rfl⟩

/-- Invariant preservation along a trace, for invariants preserved by every
step whose event satisfies `P`. -/
theorem runFrom_invariant (Inv : MJState → Prop) (P : MJEvent → Prop)
    (hstep : ∀ e s, Inv s → P e → Inv (step e s).1) :
    ∀ (evs : List MJEvent) (s : MJState), Inv s → (∀ e ∈ evs, P e) →
      Inv (runFrom s evs) := by
  intro evs
  induction evs with
  | nil => intro s h _; exact h
  | cons e rest ih =>
    intro s h hP
    exact ih (step e s).1 (hstep e s h (hP e (List.mem_cons_self e rest)))
      (fun e' he' => hP e' (List.mem_cons_of_mem e he'))

/-! ### The in-flight flag and the outstanding call (C1) -/

/-- The flag/outstanding-call coupling is preserved by every step: the
`typesetting` flag is up exactly while a call is outstanding, and never more
than one call is outstanding. -/
theorem flag_inv_step (e : MJEvent) (s : MJState)
    (h : (s.typesetting = true ↔ s.pending ≠ []) ∧ s.pending.length ≤ 1) :
    (((step e s).1.typesetting = true ↔ (step e s).1.pending ≠ []) ∧
      (step e s).1.pending.length ≤ 1) := by
  cases e with
  | render p c =>
    rcases runEffect_cases p c (commitStyle p c (hiddenGuard p c s)) with hc | ⟨hts, ctx, _, hc⟩
    · simp only [step, hc]
      simpa using h
    · simp only [step, hc]
      simp only [commitStyle_typesetting, hiddenGuard_typesetting] at hts
      have hpe : s.pending = [] := by
        rcases hsp : s.pending with _ | ⟨a, b⟩
        · rfl
        · have : s.typesetting = true := h.1.mpr (by rw [hsp]; simp)
          rw [hts] at this
          cases this
      simp [hpe]
  | resolve ok err =>
    rcases resolveCall_char ok err s with ⟨_, hc⟩ | ⟨pd, rest, s1, hp, hc, hrest, _⟩
    · simp only [step, hc]
      exact h
    · simp only [step, hc]
      have : rest = [] := by
        have hlen := h.2
        rw [hp] at hlen
        simpa using hlen
      simp [hrest, this]

/-- C1: for every boundary instance, the in-flight flag (`typesetting`) is up
if and only if an engine call has been dispatched and not yet
completed/failed, and at most one engine call is outstanding at any time;
moreover a render arriving while the flag is up dispatches nothing: the
outstanding-call list, the dispatch counter, the engine log and the flag are
all unchanged (no queueing, no coalescing). -/
theorem mathjax_c1 :
    (∀ evs : List MJEvent,
      ((run evs).typesetting = true ↔ (run evs).pending ≠ []) ∧
      (run evs).pending.length ≤ 1) ∧
    (∀ (s : MJState) (p : Props) (c : Option MJContext), s.typesetting = true →
      (step (MJEvent.render p c) s).1.pending = s.pending ∧
      (step (MJEvent.render p c) s).1.dispatchCount = s.dispatchCount ∧
      (step (MJEvent.render p c) s).1.typesetting = true ∧
      (step (MJEvent.render p c) s).1.log = s.log) := by
  constructor
  · intro evs
    exact runFrom_invariant
      (fun s => (s.typesetting = true ↔ s.pending ≠ []) ∧ s.pending.length ≤ 1)
      (fun _ => True) (fun e s h _ => flag_inv_step e s h) evs initState
      (by simp [initState]) (fun _ _ => trivial)
  · intro s p c hts
    rcases runEffect_cases p c (commitStyle p c (hiddenGuard p c s)) with hc | ⟨hts', _, _, _⟩
    · simp only [step, hc]
      simp [hts]
    · simp only [commitStyle_typesetting, hiddenGuard_typesetting] at hts'
      rw [hts] at hts'
      cases hts'

/-- A state with the flag up and one outstanding call, used to witness the
suppression part of C1. -/
def busyState : MJState :=
  { initState with
      typesetting := true
      pending := [{ usedHide := none, dynamic := true, usedMode := some RenderMode.post,
                    text := none, version := 3 }]
      refCurrent := true
      prevStyleVis := some none
      dispatchCount := 1 }

/-- A context with a version-3 engine and no ambient defaults. -/
def ctx3 : MJContext :=
  { version := 3, hideUntilTypeset := none, renderMode := none, typesettingOptions := none }

/-- A context with a version-2 engine and no ambient defaults. -/
def ctx2 : MJContext :=
  { version := 2, hideUntilTypeset := none, renderMode := none, typesettingOptions := none }

/-- A concrete engine rejection. -/
def err0 : EngineErr := { message := some "boom", str := "Error: boom" }

/-- Props for a dynamic render-mode `"post"` boundary with no hide policy. -/
def postProps : Props :=
  { inline := false, hideUntilTypeset := none, text := none, dynamic := true,
    typesettingOptions := none, renderMode := some RenderMode.post }

/-- Witness for C1: a render that arrives while the flag is up is dropped. -/
theorem mathjax_c1_witness :
    busyState.typesetting = true ∧
    ((step (MJEvent.render postProps (some ctx3)) busyState).1.pending = busyState.pending ∧
      (step (MJEvent.render postProps (some ctx3)) busyState).1.dispatchCount =
        busyState.dispatchCount ∧
      (step (MJEvent.render postProps (some ctx3)) busyState).1.typesetting = true ∧
      (step (MJEvent.render postProps (some ctx3)) busyState).1.log = busyState.log) :=
  ⟨by decide, mathjax_c1.2 busyState postProps (some ctx3) (by decide)⟩

/-! ### Failure handling (C2) -/

/-- C2: on every failure path of the engine call the boundary runs the done
bookkeeping (clears the in-flight flag, consumes the outstanding call, runs
`onTypesetDone` — so the pass is counted and `initLoad` is latched) in the
state it leaves behind, and surfaces a `typesetFailure` whose message is
`"Typesetting failed: "` followed by the underlying engine message (or its
string rendering when no message field exists); the flag is down afterwards. -/
theorem mathjax_c2 (s : MJState) (pd : Pending) (err : EngineErr)
    (hp : s.pending = [pd]) :
    (step (MJEvent.resolve false err) s).2 =
        some (MJError.typesetFailure (typesettingFailed err)) ∧
    (step (MJEvent.resolve false err) s).1.typesetting = false ∧
    (step (MJEvent.resolve false err) s).1.pending = [] ∧
    (step (MJEvent.resolve false err) s).1.typesetCount = s.typesetCount + 1 ∧
    (step (MJEvent.resolve false err) s).1.initLoad = true ∧
    (∀ m, err.message = some m →
        typesettingFailed err = "Typesetting failed: " ++ m) ∧
    (err.message = none → typesettingFailed err = "Typesetting failed: " ++ err.str) := by
  obtain ⟨lc, il, ts, rc, vis, pv, pending, dc, cc, ic, tc, lg⟩ := s
  simp only at hp
  subst hp
  refine ⟨rfl, rfl, rfl, rfl, rfl, ?_, ?_⟩
  · intro m hm
    simp [typesettingFailed, hm]
  · intro hm
    simp [typesettingFailed, hm]

/-- A state with one outstanding version-3 `"post"` call, as left by a first
dispatching render of `postProps`. -/
def pendingPostState : MJState :=
  { initState with
      typesetting := true
      refCurrent := true
      prevStyleVis := some none
      pending := [{ usedHide := none, dynamic := true, usedMode := some RenderMode.post,
                    text := none, version := 3 }]
      dispatchCount := 1 }

/-- Witness for C2 at a concrete failing resolution. -/
theorem mathjax_c2_witness :
    pendingPostState.pending =
      [{ usedHide := none, dynamic := true, usedMode := some RenderMode.post,
         text := none, version := 3 }] ∧
    ((step (MJEvent.resolve false err0) pendingPostState).2 =
        some (MJError.typesetFailure (typesettingFailed err0)) ∧
      (step (MJEvent.resolve false err0) pendingPostState).1.typesetting = false ∧
      (step (MJEvent.resolve false err0) pendingPostState).1.pending = [] ∧
      (step (MJEvent.resolve false err0) pendingPostState).1.typesetCount =
        pendingPostState.typesetCount + 1 ∧
      (step (MJEvent.resolve false err0) pendingPostState).1.initLoad = true ∧
      (∀ m, err0.message = some m →
          typesettingFailed err0 = "Typesetting failed: " ++ m) ∧
      (err0.message = none →
          typesettingFailed err0 = "Typesetting failed: " ++ err0.str)) :=
  ⟨by decide, mathjax_c2 pendingPostState
    { usedHide := none, dynamic := true, usedMode := some RenderMode.post,
      text := none, version := 3 } err0 (by decide)⟩

/-! ### Callback accounting (C3) -/

/-- `initLoad`/`initCount` coupling is preserved by every step:
`onInitTypeset` has been invoked exactly once when `initLoad` is set and
never otherwise. -/
theorem initCount_inv_step (e : MJEvent) (s : MJState)
    (h : s.initCount = if s.initLoad = true then 1 else 0) :
    (step e s).1.initCount = if (step e s).1.initLoad = true then 1 else 0 := by
  cases e with
  | render p c =>
    rcases runEffect_cases p c (commitStyle p c (hiddenGuard p c s)) with hc | ⟨_, ctx, _, hc⟩
    · simp only [step, hc]
      simpa using h
    · simp only [step, hc]
      simpa using h
  | resolve ok err =>
    rcases resolveCall_char ok err s with ⟨_, hc⟩ | ⟨pd, rest, s1, hp, hc, _, _, hil, hic, _⟩
    · simp only [step, hc]
      exact h
    · simp only [step, hc, onTypesetDone_initCount, onTypesetDone_initLoad, hil, hic]
      rcases hl : s.initLoad with _ | _
      · simp only [hl, if_pos rfl] at h ⊢
        simp [h]
      · simp only [hl] at h ⊢
        simpa using h

/-- The counterexample trace for C3: a render-mode `"pre"` boundary whose
first (and only) conversion fails. -/
def preFailTrace : List MJEvent :=
  [MJEvent.render
      { inline := false, hideUntilTypeset := none, text := some "a", dynamic := true,
        typesettingOptions := some ⟨"tex2chtml"⟩, renderMode := some RenderMode.pre }
      (some ctx3),
   MJEvent.resolve false err0]

/-- Counterexample to C3 as stated: in mode `"pre"`, after a single pass
whose conversion FAILS (no successful conversion ever happened:
`convertCalls = 0`), `onTypeset` has still been invoked once and
`onInitTypeset` has been invoked once — the claim says neither may fire on a
failed conversion. -/
theorem mathjax_c3_counterexample :
    (run preFailTrace).convertCalls = 0 ∧
    (run preFailTrace).typesetCount = 1 ∧
    (run preFailTrace).initCount = 1 := by decide

/-- C3 (amended): `onInitTypeset` fires exactly once across any number of
passes, namely at the first finished pass, whether that pass succeeded or
failed (`initCount` is `1` exactly when `initLoad` is latched, and a
resolution increments it exactly when `initLoad` was not yet latched);
`onTypeset` fires exactly once per finished pass — successful or failed, in
either render mode — and neither callback fires on renders (in particular
not on skipped attempts) or on resolutions with no outstanding call. -/
theorem mathjax_c3_amended :
    (∀ evs : List MJEvent,
      (run evs).initCount = if (run evs).initLoad = true then 1 else 0) ∧
    (∀ (s : MJState) (ok : Bool) (err : EngineErr), s.pending ≠ [] →
      (step (MJEvent.resolve ok err) s).1.typesetCount = s.typesetCount + 1) ∧
    (∀ (s : MJState) (ok : Bool) (err : EngineErr), s.pending ≠ [] →
        s.initLoad = false →
      (step (MJEvent.resolve ok err) s).1.initCount = s.initCount + 1) ∧
    (∀ (s : MJState) (ok : Bool) (err : EngineErr), s.initLoad = true →
      (step (MJEvent.resolve ok err) s).1.initCount = s.initCount) ∧
    (∀ (s : MJState) (p : Props) (c : Option MJContext),
      (step (MJEvent.render p c) s).1.typesetCount = s.typesetCount ∧
      (step (MJEvent.render p c) s).1.initCount = s.initCount) ∧
    (∀ (s : MJState) (ok : Bool) (err : EngineErr), s.pending = [] →
      (step (MJEvent.resolve ok err) s).1 = s) := by
  refine ⟨?_, ?_, ?_, ?_, ?_, ?_⟩
  · intro evs
    exact runFrom_invariant
      (fun s => s.initCount = if s.initLoad = true then 1 else 0)
      (fun _ => True) (fun e s h _ => initCount_inv_step e s h) evs initState
      (by simp [initState]) (fun _ _ => trivial)
  · intro s ok err hne
    rcases resolveCall_char ok err s with ⟨hp, _⟩ | ⟨pd, rest, s1, hp, hc, _, _, _, _, htc, _⟩
    · exact absurd hp hne
    · simp only [step, hc, onTypesetDone_typesetCount, htc]
  · intro s ok err hne hil
    rcases resolveCall_char ok err s with ⟨hp, _⟩ | ⟨pd, rest, s1, hp, hc, _, _, hil1, hic, _⟩
    · exact absurd hp hne
    · simp only [step, hc, onTypesetDone_initCount, hil1, hic, hil]
      simp
  · intro s ok err hil
    rcases resolveCall_char ok err s with ⟨_, hc⟩ | ⟨pd, rest, s1, hp, hc, _, _, hil1, hic, _⟩
    · simp only [step, hc]
    · simp only [step, hc, onTypesetDone_initCount, hil1, hic, hil]
      simp
  · intro s p c
    rcases runEffect_cases p c (commitStyle p c (hiddenGuard p c s)) with hc | ⟨_, ctx, _, hc⟩
    · simp only [step, hc]
      simp
    · simp only [step, hc]
      simp
  · intro s ok err hp
    obtain ⟨lc, il, ts, rc, vis, pv, pending, dc, cc, ic, tc, lg⟩ := s
    simp only at hp
    subst hp
    rfl

/-- Witness for C3 (amended): a concrete failed resolution increments both
callback counters from a pristine dispatched state. -/
theorem mathjax_c3_amended_witness :
    (pendingPostState.pending ≠ [] ∧ pendingPostState.initLoad = false) ∧
    (step (MJEvent.resolve false err0) pendingPostState).1.typesetCount =
      pendingPostState.typesetCount + 1 ∧
    (step (MJEvent.resolve false err0) pendingPostState).1.initCount =
      pendingPostState.initCount + 1 :=
  ⟨⟨by decide, by decide⟩,
    mathjax_c3_amended.2.1 pendingPostState false err0 (by decide),
    mathjax_c3_amended.2.2.1 pendingPostState false err0 (by decide) (by decide)⟩

/-! ### The missing-conversion-function check (C4) -/

/-- Props for a `"pre"` boundary that supplies no per-instance
`typesettingOptions`. -/
def c4Props : Props :=
  { inline := false, hideUntilTypeset := none, text := some "x", dynamic := false,
    typesettingOptions := none, renderMode := some RenderMode.pre }

/-- A version-3 context that provides the conversion function ambiently. -/
def c4Ctx : MJContext :=
  { version := 3, hideUntilTypeset := none, renderMode := none,
    typesettingOptions := some { fn := "tex2chtml" } }

/-- C4 failing input: in mode `"pre"` with a conversion function provided
only by the enclosing context, the resolved conversion options are present
(`usedConversionOptions` — the value the actual engine call of line 128
would use), yet the first render still throws the missing-conversion-function
error and dispatches nothing, because the check of line 102 reads the
`typesettingOptions` prop instead of the context fallback its own error
message ("... on MathJax element or in the MathJaxContext") promises. -/
theorem mathjax_c4_code_bug :
    usedConversionOptions c4Props (some c4Ctx) = some { fn := "tex2chtml" } ∧
    (step (MJEvent.render c4Props (some c4Ctx)) initState).2 =
      some MJError.missingConversionFn ∧
    (step (MJEvent.render c4Props (some c4Ctx)) initState).1.dispatchCount = 0 := by
  decide

/-! ### Skipping on unchanged text (C6) -/

/-- With the gate open, the element mounted, the flag down and no
configuration error, the effect dispatches exactly when
`usedRenderMode === "post" || text !== lastChildren.current`. -/
theorem runEffect_dispatchCount (p : Props) (ctx : MJContext) (s : MJState)
    (hgate : p.dynamic = true ∨ s.initLoad = false)
    (href : s.refCurrent = true)
    (hts : s.typesetting = false)
    (h1 : ¬(usedRenderMode p (some ctx) = some RenderMode.pre ∧ validText p.text = false))
    (h2 : ¬(usedRenderMode p (some ctx) = some RenderMode.pre ∧
        hasConversionFn p.typesettingOptions = false))
    (h3 : ¬(usedRenderMode p (some ctx) = some RenderMode.pre ∧ ctx.version = 2)) :
    (runEffect p (some ctx) s).1.dispatchCount =
      (if usedRenderMode p (some ctx) = some RenderMode.post ∨ p.text ≠ some s.lastChildren
       then s.dispatchCount + 1 else s.dispatchCount) := by
  simp only [runEffect]
  rw [if_pos hgate, if_pos href, if_neg h1, if_neg h2, if_neg h3, if_pos hts]
  split
  · rfl
  · rfl

/-- Props for a dynamic render-mode `"pre"` boundary with text `"a"`. -/
def preProps : Props :=
  { inline := false, hideUntilTypeset := none, text := some "a", dynamic := true,
    typesettingOptions := some { fn := "tex2chtml" }, renderMode := some RenderMode.pre }

/-- Two consecutive renders of the same `"pre"` boundary with unchanged text,
with the first pass resolving in between. -/
def preSameTrace : List MJEvent :=
  [MJEvent.render preProps (some ctx3), MJEvent.resolve true err0,
   MJEvent.render preProps (some ctx3)]

/-- Two consecutive renders of the same `"post"` boundary, with the first
pass resolving in between. -/
def postSameTrace : List MJEvent :=
  [MJEvent.render postProps (some ctx3), MJEvent.resolve true err0,
   MJEvent.render postProps (some ctx3)]

/-- C6: in render mode `"pre"` (gate open, flag down, configuration valid) a
render dispatches an engine call exactly when the text prop differs from the
cached last successfully processed value, while in mode `"post"` it always
dispatches; concretely, rendering twice in a row with the same text in mode
`"pre"` produces exactly one engine conversion call, and the same trace in
mode `"post"` produces two passes. -/
theorem mathjax_c6 :
    (∀ (s : MJState) (p : Props) (ctx : MJContext),
      usedRenderMode p (some ctx) = some RenderMode.pre →
      (p.dynamic = true ∨ s.initLoad = false) →
      validText p.text = true →
      hasConversionFn p.typesettingOptions = true →
      ctx.version ≠ 2 →
      s.typesetting = false →
      ((step (MJEvent.render p (some ctx)) s).1.dispatchCount = s.dispatchCount + 1 ↔
        p.text ≠ some s.lastChildren)) ∧
    (∀ (s : MJState) (p : Props) (ctx : MJContext),
      usedRenderMode p (some ctx) = some RenderMode.post →
      (p.dynamic = true ∨ s.initLoad = false) →
      s.typesetting = false →
      (step (MJEvent.render p (some ctx)) s).1.dispatchCount = s.dispatchCount + 1) ∧
    (run preSameTrace).dispatchCount = 1 ∧
    (run preSameTrace).convertCalls = 1 ∧
    (run postSameTrace).dispatchCount = 2 := by
  refine ⟨?_, ?_, by decide, by decide, by decide⟩
  · intro s p ctx hm hgate hvt hfn hv2 hts
    have h := runEffect_dispatchCount p ctx (commitStyle p (some ctx) (hiddenGuard p (some ctx) s))
      (by simpa using hgate) (by simp) (by simpa using hts)
      (by simp [hvt]) (by simp [hfn]) (by simp [hv2])
    simp only [commitStyle_lastChildren, hiddenGuard_lastChildren,
      commitStyle_dispatchCount, hiddenGuard_dispatchCount] at h
    simp only [step]
    rw [h]
    by_cases ht : p.text = some s.lastChildren
    · simp [hm, ht]
    · simp [hm, ht]
  · intro s p ctx hm hgate hts
    have h := runEffect_dispatchCount p ctx (commitStyle p (some ctx) (hiddenGuard p (some ctx) s))
      (by simpa using hgate) (by simp) (by simpa using hts)
      (by simp [hm]) (by simp [hm]) (by simp [hm])
    simp only [commitStyle_lastChildren, hiddenGuard_lastChildren,
      commitStyle_dispatchCount, hiddenGuard_dispatchCount] at h
    simp only [step]
    rw [h]
    simp [hm]

/-- Witness for C6 at the first render of `preProps`: the cached value is
`""`, the text is `"a"`, and the equivalence yields a dispatch. -/
theorem mathjax_c6_witness :
    (usedRenderMode preProps (some ctx3) = some RenderMode.pre ∧
      (preProps.dynamic = true ∨ initState.initLoad = false) ∧
      validText preProps.text = true ∧
      hasConversionFn preProps.typesettingOptions = true ∧
      ctx3.version ≠ 2 ∧ initState.typesetting = false) ∧
    ((step (MJEvent.render preProps (some ctx3)) initState).1.dispatchCount =
        initState.dispatchCount + 1 ↔ preProps.text ≠ some initState.lastChildren) :=
  ⟨⟨by decide, by decide, by decide, by decide, by decide, by decide⟩,
    mathjax_c6.1 initState preProps ctx3 (by decide) (by decide) (by decide)
      (by decide) (by decide) (by decide)⟩

/-! ### Clearing before the post-mode pass (C8) -/

/-- The counterexample trace for C8: a version-2 `"post"` boundary whose
single pass completes. -/
def post2Trace : List MJEvent :=
  [MJEvent.render postProps (some ctx2), MJEvent.resolve true err0]

/-- Counterexample to C8 as stated: under engine version 2 a qualifying
`"post"` pass completes (`onTypeset` ran once) without any clearing of
previously injected markup — no `typesetClear` action is ever issued, the
pass only queues the typeset job and the done handler. -/
theorem mathjax_c8_counterexample :
    (run post2Trace).typesetCount = 1 ∧
    EngineAction.typesetClear ∉ (run post2Trace).log ∧
    (run post2Trace).log = [EngineAction.typesetPass, EngineAction.done] := by
  decide

/-- C8 (amended): in render mode `"post"` under engine version 3, every
completing pass first clears previously injected markup (`typesetClear`),
then runs the engine pass (`typesetPromise`), then the done-handler; under
engine version 2 the pass runs the queued typeset job and then the
done-handler, with no clearing step. -/
theorem mathjax_c8_amended :
    (∀ (s : MJState) (pd : Pending) (rest : List Pending) (err : EngineErr),
      s.pending = pd :: rest → pd.version = 3 → pd.usedMode = some RenderMode.post →
      (step (MJEvent.resolve true err) s).1.log =
        s.log ++ [EngineAction.typesetClear, EngineAction.typesetPass, EngineAction.done]) ∧
    (∀ (s : MJState) (pd : Pending) (rest : List Pending) (err : EngineErr),
      s.pending = pd :: rest → pd.version = 2 →
      (step (MJEvent.resolve true err) s).1.log =
        s.log ++ [EngineAction.typesetPass, EngineAction.done]) := by
  constructor
  · intro s pd rest err hp hv hm
    obtain ⟨lc, il, ts, rc, vis, pv, pending, dc, cc, ic, tc, lg⟩ := s
    simp only at hp
    subst hp
    simp only [step, resolveCall, if_true]
    rw [if_pos hv, if_neg (by simp [hm])]
    simp
  · intro s pd rest err hp hv
    obtain ⟨lc, il, ts, rc, vis, pv, pending, dc, cc, ic, tc, lg⟩ := s
    simp only at hp
    subst hp
    simp only [step, resolveCall, if_true]
    rw [if_neg (by simp [hv])]
    simp

/-- Witness for C8 (amended) at a concrete version-3 `"post"` resolution. -/
theorem mathjax_c8_amended_witness :
    (pendingPostState.pending =
        { usedHide := none, dynamic := true, usedMode := some RenderMode.post,
          text := none, version := 3 } :: [] ∧ (3 : Nat) = 3) ∧
    (step (MJEvent.resolve true err0) pendingPostState).1.log =
      pendingPostState.log ++
        [EngineAction.typesetClear, EngineAction.typesetPass, EngineAction.done] :=
  ⟨⟨by decide, rfl⟩,
    mathjax_c8_amended.1 pendingPostState
      { usedHide := none, dynamic := true, usedMode := some RenderMode.post,
        text := none, version := 3 } [] err0 (by decide) rfl rfl⟩

/-! ### Visibility invariants (C5, C7, C9) -/

/-- A captured call whose completion cannot reveal the element: neither the
`"first"` reveal of `checkInitLoad` (line 50) nor the `"every"`-with-dynamic-
`"post"` reveal of `onTypesetDone` (line 60) can fire for it. -/
def noReveal (h : Option HidePolicy) (dyn : Bool) (m : Option RenderMode) : Bool :=
  decide (¬(h = some HidePolicy.first)) &&
  decide (¬(h = some HidePolicy.every ∧ dyn = true ∧ m = some RenderMode.post))

/-- A render configuration that keeps the element hidden forever: some hide
policy is in effect (so the style prop pins `visibility: hidden`) and no
completion it dispatches can reveal. -/
def eventHiddenCfg : MJEvent → Bool
  | MJEvent.render p c =>
    (usedHideUntilTypeset p c).isSome &&
      noReveal (usedHideUntilTypeset p c) p.dynamic (usedRenderMode p c)
  | MJEvent.resolve _ _ => true

/-- States reachable under `eventHiddenCfg` renders: every outstanding call
is reveal-free, and the element is unset before mount and pinned hidden
afterwards. -/
def HiddenInv (s : MJState) : Prop :=
  (∀ pd ∈ s.pending, noReveal pd.usedHide pd.dynamic pd.usedMode = true) ∧
  ((s.refCurrent = false ∧ s.visibility = Visibility.unset ∧ s.prevStyleVis = none) ∨
   (s.refCurrent = true ∧ s.visibility = Visibility.hidden ∧
     s.prevStyleVis = some (some Visibility.hidden)))

theorem hidden_inv_step (e : MJEvent) (s : MJState) (hInv : HiddenInv s)
    (he : eventHiddenCfg e = true) : HiddenInv (step e s).1 := by
  obtain ⟨hpd, hcase⟩ := hInv
  cases e with
  | render p c =>
    have hcfg : (usedHideUntilTypeset p c).isSome = true ∧
        noReveal (usedHideUntilTypeset p c) p.dynamic (usedRenderMode p c) = true := by
      simpa [eventHiddenCfg, Bool.and_eq_true] using he
    have hsv : styleVisibility p c = some Visibility.hidden := by
      simp [styleVisibility, hcfg.1]
    have hvis : (commitStyle p c (hiddenGuard p c s)).visibility = Visibility.hidden := by
      rcases hcase with ⟨h1, h2, h3⟩ | ⟨h1, h2, h3⟩
      · simp [commitStyle, hiddenGuard, h3, hsv]
      · simp [commitStyle, hiddenGuard, h3, hsv, h2]
    rcases runEffect_cases p c (commitStyle p c (hiddenGuard p c s)) with hc | ⟨_, ctx, _, hc⟩
    · refine ⟨?_, Or.inr ⟨?_, ?_, ?_⟩⟩
      · intro pd hq
        simp only [step, hc, commitStyle_pending, hiddenGuard_pending] at hq
        exact hpd pd hq
      · simp [step, hc]
      · simp only [step, hc]
        exact hvis
      · simp [step, hc, hsv]
    · refine ⟨?_, Or.inr ⟨?_, ?_, ?_⟩⟩
      · intro pd hq
        simp only [step, hc, commitStyle_pending, hiddenGuard_pending, List.mem_append,
          List.mem_singleton] at hq
        rcases hq with hq | hq
        · exact hpd pd hq
        · subst hq
          simpa [mkPending] using hcfg.2
      · simp [step, hc]
      · simp only [step, hc]
        exact hvis
      · simp [step, hc, hsv]
  | resolve ok err =>
    rcases resolveCall_char ok err s with ⟨_, hc⟩ | ⟨pd, rest, s1, hp, hc, hrest, _, _, _, _, hrc, hvis1, hpv, _⟩
    · simp only [step, hc]
      exact ⟨hpd, hcase⟩
    · have hnr : noReveal pd.usedHide pd.dynamic pd.usedMode = true :=
        hpd pd (by rw [hp]; exact List.mem_cons_self pd rest)
      have hnr2 : ¬(pd.usedHide = some HidePolicy.first) ∧
          ¬(pd.usedHide = some HidePolicy.every ∧ pd.dynamic = true ∧
              pd.usedMode = some RenderMode.post) := by
        simp only [noReveal, Bool.and_eq_true, decide_eq_true_eq] at hnr
        exact hnr
      have c1 : ¬(s1.initLoad = false ∧ pd.usedHide = some HidePolicy.first ∧
          s1.refCurrent = true) := fun hcon => hnr2.1 hcon.2.1
      have c2 : ¬(pd.usedHide = some HidePolicy.every ∧ pd.dynamic = true ∧
          pd.usedMode = some RenderMode.post ∧ s1.refCurrent = true) :=
        fun hcon => hnr2.2 ⟨hcon.1, hcon.2.1, hcon.2.2.1⟩
      have hv : (onTypesetDone pd s1).visibility = s1.visibility := by
        rw [onTypesetDone_visibility, if_neg c1, if_neg c2]
      refine ⟨?_, ?_⟩
      · intro q hq
        simp only [step, hc, onTypesetDone_pending, hrest] at hq
        exact hpd q (by rw [hp]; exact List.mem_cons_of_mem pd hq)
      · rcases hcase with ⟨h1, h2, h3⟩ | ⟨h1, h2, h3⟩
        · exact Or.inl ⟨by simp [step, hc, hrc, h1], by simp only [step, hc]; rw [hv, hvis1, h2],
            by simp [step, hc, hpv, h3]⟩
        · exact Or.inr ⟨by simp [step, hc, hrc, h1], by simp only [step, hc]; rw [hv, hvis1, h2],
            by simp [step, hc, hpv, h3]⟩

/-- Any trace of hidden-forever renders keeps `HiddenInv`. -/
theorem hidden_inv_run (evs : List MJEvent) (h : evs.all eventHiddenCfg = true) :
    HiddenInv (run evs) := by
  refine runFrom_invariant HiddenInv (fun e => eventHiddenCfg e = true)
    hidden_inv_step evs initState ⟨?_, Or.inl ⟨rfl, rfl, rfl⟩⟩ ?_
  · intro pd hq
    simp [initState] at hq
  · exact fun e he => List.all_eq_true.mp h e he

/-- A render with resolved hide policy `"every"` and resolved render mode
`"pre"` (resolutions unconstrained). -/
def preEveryCfg : MJEvent → Bool
  | MJEvent.render p c =>
    decide (usedHideUntilTypeset p c = some HidePolicy.every) &&
      decide (usedRenderMode p c = some RenderMode.pre)
  | MJEvent.resolve _ _ => true

/-- Props for a dynamic `"pre"` boundary with hide policy `"every"`. -/
def c5Props : Props :=
  { inline := false, hideUntilTypeset := some HidePolicy.every, text := some "a",
    dynamic := true, typesettingOptions := some { fn := "tex2chtml" },
    renderMode := some RenderMode.pre }

/-- A `"pre"`/`"every"` boundary whose first pass completes successfully. -/
def c5Trace : List MJEvent :=
  [MJEvent.render c5Props (some ctx3), MJEvent.resolve true err0]

/-- Counterexample to C5 as stated: in mode `"pre"` with
`hideUntilTypeset = "every"`, after the first pass completes successfully
(`onTypeset` ran, `initLoad` latched) the boundary is still hidden — it is
never made visible, because the `onTypesetDone` reveal requires mode
`"post"` and the `checkInitLoad` reveal requires policy `"first"`. -/
theorem mathjax_c5_counterexample :
    (run c5Trace).typesetCount = 1 ∧
    (run c5Trace).initLoad = true ∧
    (run c5Trace).visibility = Visibility.hidden := by decide

/-- C5 (amended): in render mode `"pre"` with `hideUntilTypeset = "every"`,
the per-pass hide/reveal coupling does not apply — and neither does any
reveal at all: the boundary is rendered hidden from the first commit on and
stays hidden across any number of passes, successful or failed (the
initial-load reveal fires only under policy `"first"`). -/
theorem mathjax_c5_amended (evs : List MJEvent) (h : evs.all preEveryCfg = true) :
    (run evs).visibility ≠ Visibility.visible ∧
    ((run evs).refCurrent = true → (run evs).visibility = Visibility.hidden) := by
  have hh : evs.all eventHiddenCfg = true := by
    rw [List.all_eq_true] at h ⊢
    intro e he
    have hcfg := h e he
    cases e with
    | render p c =>
      simp only [preEveryCfg, Bool.and_eq_true, decide_eq_true_eq] at hcfg
      simp [eventHiddenCfg, noReveal, hcfg.1, hcfg.2]
    | resolve ok err => rfl
  have hinv := hidden_inv_run evs hh
  rcases hinv.2 with ⟨h1, h2, _⟩ | ⟨h1, h2, _⟩
  · refine ⟨?_, ?_⟩
    · rw [h2]
      exact fun hcon => Visibility.noConfusion hcon
    · intro hrc
      rw [h1] at hrc
      cases hrc
  · refine ⟨?_, fun _ => h2⟩
    rw [h2]
    exact fun hcon => Visibility.noConfusion hcon

/-- Witness for C5 (amended) on the concrete successful-pass trace. -/
theorem mathjax_c5_amended_witness :
    c5Trace.all preEveryCfg = true ∧ (run c5Trace).visibility = Visibility.hidden :=
  ⟨by decide, (mathjax_c5_amended c5Trace (by decide)).2 (by decide)⟩

/-- A render with resolved hide policy `"every"`, resolved render mode
`"post"`, and `dynamic` unset (falsy). -/
def postEveryStaticCfg : MJEvent → Bool
  | MJEvent.render p c =>
    decide (usedHideUntilTypeset p c = some HidePolicy.every) &&
      decide (usedRenderMode p c = some RenderMode.post) && decide (p.dynamic = false)
  | MJEvent.resolve _ _ => true

/-- Props for a non-dynamic `"post"` boundary with hide policy `"every"`. -/
def c9Props : Props :=
  { inline := false, hideUntilTypeset := some HidePolicy.every, text := none,
    dynamic := false, typesettingOptions := none, renderMode := some RenderMode.post }

/-- A non-dynamic `"post"`/`"every"` boundary: mount, complete the first
pass, re-render. -/
def c9Trace : List MJEvent :=
  [MJEvent.render c9Props (some ctx3), MJEvent.resolve true err0,
   MJEvent.render c9Props (some ctx3)]

/-- C9: with `hideUntilTypeset = "every"` but `dynamic` false in render mode
`"post"`, the boundary is rendered hidden and never made visible, however
many passes complete: the done-handler reveal requires `dynamic` and the
initial-load reveal requires policy `"first"`. -/
theorem mathjax_c9 (evs : List MJEvent) (h : evs.all postEveryStaticCfg = true) :
    (run evs).visibility ≠ Visibility.visible ∧
    ((run evs).refCurrent = true → (run evs).visibility = Visibility.hidden) := by
  have hh : evs.all eventHiddenCfg = true := by
    rw [List.all_eq_true] at h ⊢
    intro e he
    have hcfg := h e he
    cases e with
    | render p c =>
      simp only [postEveryStaticCfg, Bool.and_eq_true, decide_eq_true_eq] at hcfg
      simp [eventHiddenCfg, noReveal, hcfg.1.1, hcfg.1.2, hcfg.2]
    | resolve ok err => rfl
  have hinv := hidden_inv_run evs hh
  rcases hinv.2 with ⟨h1, h2, _⟩ | ⟨h1, h2, _⟩
  · refine ⟨?_, ?_⟩
    · rw [h2]
      exact fun hcon => Visibility.noConfusion hcon
    · intro hrc
      rw [h1] at hrc
      cases hrc
  · refine ⟨?_, fun _ => h2⟩
    rw [h2]
    exact fun hcon => Visibility.noConfusion hcon

/-- Witness for C9 on the concrete trace with one completed pass. -/
theorem mathjax_c9_witness :
    c9Trace.all postEveryStaticCfg = true ∧
    (run c9Trace).typesetCount = 1 ∧
    (run c9Trace).visibility = Visibility.hidden :=
  ⟨by decide, by decide, (mathjax_c9 c9Trace (by decide)).2 (by decide)⟩

/-- A render with resolved hide policy `"first"` (resolutions
unconstrained). -/
def firstCfg : MJEvent → Bool
  | MJEvent.render p c => decide (usedHideUntilTypeset p c = some HidePolicy.first)
  | MJEvent.resolve _ _ => true

/-- States reachable under `"first"`-policy renders: every outstanding call
captured policy `"first"`; before mount nothing has happened; after mount the
committed style pins `hidden` and the inline visibility is `hidden` until the
first finished pass and `visible` from then on. -/
def FirstInv (s : MJState) : Prop :=
  (∀ pd ∈ s.pending, pd.usedHide = some HidePolicy.first) ∧
  ((s.refCurrent = false ∧ s.visibility = Visibility.unset ∧ s.prevStyleVis = none ∧
      s.initLoad = false ∧ s.pending = []) ∨
   (s.refCurrent = true ∧ s.prevStyleVis = some (some Visibility.hidden) ∧
      s.visibility = (if s.initLoad = true then Visibility.visible else Visibility.hidden)))

theorem first_inv_step (e : MJEvent) (s : MJState) (hInv : FirstInv s)
    (he : firstCfg e = true) : FirstInv (step e s).1 := by
  obtain ⟨hpd, hcase⟩ := hInv
  cases e with
  | render p c =>
    have hcfg : usedHideUntilTypeset p c = some HidePolicy.first := by
      simpa [firstCfg] using he
    have hsv : styleVisibility p c = some Visibility.hidden := by
      simp [styleVisibility, hcfg]
    have hguard : (hiddenGuard p c s).visibility = s.visibility := by
      simp [hiddenGuard, hcfg]
    have hvis : (commitStyle p c (hiddenGuard p c s)).visibility =
        (if s.initLoad = true then Visibility.visible else Visibility.hidden) := by
      rcases hcase with ⟨h1, h2, h3, h4, h5⟩ | ⟨h1, h2, h3⟩
      · simp [commitStyle, h3, hsv, h4]
      · simp only [commitStyle, commitStyle_prevStyleVis, hiddenGuard_prevStyleVis, h2, hsv,
          hguard, h3]
        simp
    rcases runEffect_cases p c (commitStyle p c (hiddenGuard p c s)) with hc | ⟨_, ctx, _, hc⟩
    · refine ⟨?_, Or.inr ⟨by simp [step, hc], by simp [step, hc, hsv], ?_⟩⟩
      · intro pd hq
        simp only [step, hc, commitStyle_pending, hiddenGuard_pending] at hq
        exact hpd pd hq
      · simp only [step, hc, commitStyle_initLoad, hiddenGuard_initLoad]
        exact hvis
    · refine ⟨?_, Or.inr ⟨by simp [step, hc], by simp [step, hc, hsv], ?_⟩⟩
      · intro pd hq
        simp only [step, hc, commitStyle_pending, hiddenGuard_pending, List.mem_append,
          List.mem_singleton] at hq
        rcases hq with hq | hq
        · exact hpd pd hq
        · subst hq
          simp [mkPending, hcfg]
      · simp only [step, hc, commitStyle_initLoad, hiddenGuard_initLoad]
        exact hvis
  | resolve ok err =>
    rcases resolveCall_char ok err s with ⟨_, hc⟩ | ⟨pd, rest, s1, hp, hc, hrest, _, hil1, _, _, hrc1, hvis1, hpv1, _⟩
    · simp only [step, hc]
      exact ⟨hpd, hcase⟩
    · have hfirst : pd.usedHide = some HidePolicy.first :=
        hpd pd (by rw [hp]; exact List.mem_cons_self pd rest)
      rcases hcase with ⟨h1, h2, h3, h4, h5⟩ | ⟨h1, h2, h3⟩
      · rw [hp] at h5
        cases h5
      · have hvv : (onTypesetDone pd s1).visibility = Visibility.visible := by
          by_cases hil : s.initLoad = true
          · rw [onTypesetDone_visibility, if_neg (fun hcon => by simp [hil1, hil] at hcon),
              if_neg (fun hcon => by simp [hfirst] at hcon), hvis1, h3, if_pos hil]
          · rw [onTypesetDone_visibility,
              if_pos ⟨by rw [hil1]; exact Bool.eq_false_iff.mpr hil, hfirst,
                by rw [hrc1, h1]⟩]
        refine ⟨?_, Or.inr ⟨?_, ?_, ?_⟩⟩
        · intro q hq
          simp only [step, hc, onTypesetDone_pending, hrest] at hq
          exact hpd q (by rw [hp]; exact List.mem_cons_of_mem pd hq)
        · simp [step, hc, hrc1, h1]
        · simp [step, hc, hpv1, h2]
        · simp only [step, hc, onTypesetDone_initLoad]
          simpa using hvv

/-- Any trace of `"first"`-policy renders keeps `FirstInv`. -/
theorem first_inv_run (evs : List MJEvent) (h : evs.all firstCfg = true) :
    FirstInv (run evs) := by
  refine runFrom_invariant FirstInv (fun e => firstCfg e = true)
    first_inv_step evs initState ⟨?_, Or.inl ⟨rfl, rfl, rfl, rfl, rfl⟩⟩ ?_
  · intro pd hq
    simp [initState] at hq
  · exact fun e he => List.all_eq_true.mp h e he

/-- C7: with `hideUntilTypeset = "first"`, the boundary is never visible
before the first finished pass (it is `hidden` once mounted), and from the
first finished pass on (`initLoad` latched) it is visible permanently —
whatever mix of successes and failures later passes produce. -/
theorem mathjax_c7 (evs : List MJEvent) (h : evs.all firstCfg = true) :
    ((run evs).initLoad = false → (run evs).visibility ≠ Visibility.visible) ∧
    ((run evs).refCurrent = true → (run evs).initLoad = false →
      (run evs).visibility = Visibility.hidden) ∧
    ((run evs).initLoad = true → (run evs).visibility = Visibility.visible) := by
  have hinv := first_inv_run evs h
  rcases hinv.2 with ⟨h1, h2, h3, h4, h5⟩ | ⟨h1, h2, h3⟩
  · refine ⟨?_, ?_, ?_⟩
    · intro _
      rw [h2]
      exact fun hcon => Visibility.noConfusion hcon
    · intro hrc
      rw [h1] at hrc
      cases hrc
    · intro hil
      rw [h4] at hil
      cases hil
  · refine ⟨?_, ?_, ?_⟩
    · intro hil
      rw [h3, hil]
      simp
    · intro _ hil
      rw [h3, hil]
      simp
    · intro hil
      rw [h3, hil]
      simp

/-- Props for a dynamic `"post"` boundary with hide policy `"first"`. -/
def firstProps : Props :=
  { inline := false, hideUntilTypeset := some HidePolicy.first, text := none,
    dynamic := true, typesettingOptions := none, renderMode := some RenderMode.post }

/-- A `"first"`-policy boundary: mount and complete the first pass, then a
second pass fails. -/
def c7Trace : List MJEvent :=
  [MJEvent.render firstProps (some ctx3), MJEvent.resolve true err0,
   MJEvent.render firstProps (some ctx3), MJEvent.resolve false err0]

/-- Witness for C7: after a successful first pass and a later failed pass
the boundary is (still) visible. -/
theorem mathjax_c7_witness :
    c7Trace.all firstCfg = true ∧ (run c7Trace).initLoad = true ∧
    (run c7Trace).visibility = Visibility.visible :=
  ⟨by decide, by decide, (mathjax_c7 c7Trace (by decide)).2.2 (by decide)⟩

/-! ### Style merging (C10) -/

/-- C10: in the rendered style, a caller-supplied `display` always overrides
the inline/block default computed from the `inline` prop (and the default
applies when the caller supplies none), while whenever any hide-until-
typeset policy is in effect the rendered `visibility` is `"hidden"`
regardless of what the caller's style says — and with no policy it is left
unset regardless of the caller's style. -/
theorem mathjax_c10 (inl : Bool) (usedHide : Option HidePolicy) (rest : CallerStyle) :
    (∀ d, rest.display = some d → (mergedStyle inl usedHide rest).display = some d) ∧
    (rest.display = none →
      (mergedStyle inl usedHide rest).display =
        some (if inl then "inline" else "block")) ∧
    (usedHide.isSome = true →
      (mergedStyle inl usedHide rest).visibility = some "hidden") ∧
    (usedHide = none → (mergedStyle inl usedHide rest).visibility = none) := by
  refine ⟨?_, ?_, ?_, ?_⟩
  · intro d hd
    simp [mergedStyle, hd]
  · intro hd
    simp [mergedStyle, hd]
  · intro hh
    simp [mergedStyle, hh]
  · intro hh
    subst hh
    simp [mergedStyle]

/-- Witness for C10: a caller style setting both `display` and `visibility`
under policy `"first"` keeps its display but has its visibility forced to
`"hidden"`. -/
theorem mathjax_c10_witness :
    ({ display := some "flex", visibility := some "visible" } : CallerStyle).display =
        some "flex" ∧
    (mergedStyle false (some HidePolicy.first)
        { display := some "flex", visibility := some "visible" }).display = some "flex" ∧
    (mergedStyle false (some HidePolicy.first)
        { display := some "flex", visibility := some "visible" }).visibility =
      some "hidden" :=
  ⟨rfl,
    (mathjax_c10 false (some HidePolicy.first)
      { display := some "flex", visibility := some "visible" }).1 "flex" rfl,
    (mathjax_c10 false (some HidePolicy.first)
      { display := some "flex", visibility := some "visible" }).2.2.1 (by decide)⟩
